import Mathlib

/-!
Shallow embedding of `hyperion/dust/emissivities.py` (`class Emissivities`).

Numeric scalars are modelled as `ℚ` (exact rationals standing for the
floating-point values; all checks in the source are order comparisons and
arithmetic that carry over verbatim).  NumPy 1-D arrays are `List ℚ`, NumPy
2-D arrays are `List (List ℚ)` in row-major (C) order; a genuine 2-D NumPy
array is rectangular.  Python exceptions are the `Err` type; a function that
can raise returns `Except Err _` (a raised exception propagates before any
assignment, so an `.error` result leaves the object as the caller had it),
or, where the claim is about mutation visibility, a pair of the object state
at raise time and an optional error.

External collaborators that live in `hyperion.util` / `numpy` / `atpy`
(not part of this file's source) are modelled from the spec as explicit
parameters or small definitions, each marked `Modelled from the spec:` in
its doc comment.
-/

namespace Hyperion

/-- Exceptions raised by `emissivities.py` (all `ValueError` / `Exception` /
builtin errors in the source, distinguished here by their message). -/
inductive Err where
  /-- `ValueError(attr + " should be a 1-D sequence")` or
      `ValueError(attr + " should be a 2-D array")` or
      the incorrect-shape message for `jnu`. -/
  | invalidShape (attr : String)
  /-- `ValueError(attr + " should be monotonically increasing")`. -/
  | notMonotonic (attr : String)
  /-- `ValueError(attr + " should be strictly positive")`. -/
  | nonPositive (attr : String)
  /-- `ValueError("jnu should be positive")`. -/
  | negativeValue
  /-- `ValueError(dep + " needs to be set before " + attr)`. -/
  | missingDependency (attr dep : String)
  /-- `Exception("Not all attributes of the emissivities are set")`. -/
  | incompleteTable
  /-- `Exception("Unknown emissivity variable: %s")`. -/
  | unsupportedVariable (name : String)
  /-- Python `IndexError` (e.g. `value[0]` on an empty array). -/
  | indexError
  /-- Python `KeyError` (missing keyword / table / column). -/
  | keyError
  /-- Python `AttributeError` / `TypeError` on `None` fields. -/
  | attributeError
  /-- NumPy `ValueError` on an empty-array reduction (`.min()` / `.max()`). -/
  | emptyArray
  /-- NumPy `ValueError` on a broadcasting mismatch. -/
  | broadcastError
  deriving DecidableEq, Repr

/-- A Python value as it reaches `__setattr__`: `None`, a 1-D NumPy array,
a 2-D NumPy array, a flat `list`/`tuple` of scalars, a rectangular nested
`list`/`tuple`, or any other object.  (A ragged nested list does not coerce
to a 2-D array, so it is covered by `other` together with everything that
fails the `is_numpy_array`/`ndim` test.) -/
inductive PyVal where
  | none
  | arr1 (xs : List ℚ)
  | arr2 (m : List (List ℚ))
  | list1 (xs : List ℚ)
  | list2 (m : List (List ℚ))
  | other
  deriving DecidableEq, Repr

/-- The `np.array(value)` coercion applied when `type(value) in [list, tuple]`. -/
def coercePy : PyVal → PyVal
  | .list1 xs => .arr1 xs
  | .list2 m => .arr2 m
  | v => v

/-- The five attributes of `Emissivities` (set in `__init__`, then frozen;
`__setattr__` intercepts every later write). -/
structure Emissivities where
  is_lte : Bool
  var_name : Option String
  var : Option (List ℚ)
  nu : Option (List ℚ)
  jnu : Option (List (List ℚ))
  deriving DecidableEq, Repr

namespace Emissivities

/-- The state produced by `Emissivities.__init__`. -/
def init : Emissivities :=
  { is_lte := false, var_name := none, var := none, nu := none, jnu := none }

/-- Modelled from the spec: `hyperion.util.functions.monotonically_increasing`
(not under `src/`), "strictly increasing" — every element strictly below its
successor (vacuously true on arrays of length ≤ 1). -/
def monotonically_increasing : List ℚ → Bool
  | [] => true
  | [_] => true
  | x :: y :: t => decide (x < y) && monotonically_increasing (y :: t)

/-- The validation `__setattr__` performs on a non-`None` value assigned to
`nu` or `var`: coerce list/tuple, require a 1-D array, require strict
monotonicity, require `value[0] > 0` (an empty array reaches `value[0]` and
raises `IndexError`).  Returns the array that gets stored. -/
def validateAxis (attr : String) (value : PyVal) : Except Err (List ℚ) :=
  match coercePy value with
  | .arr1 xs =>
    if ¬ monotonically_increasing xs then .error (.notMonotonic attr)
    else
      match xs with
      | [] => .error .indexError
      | x :: _ => if x ≤ 0 then .error (.nonPositive attr) else .ok xs
  | _ => .error (.invalidShape attr)

/-- `__setattr__` for `attribute = 'nu'`. -/
def set_nu (t : Emissivities) (value : PyVal) : Except Err Emissivities :=
  match value with
  | .none => .ok { t with nu := none }
  | v => do
    let xs ← validateAxis "nu" v
    .ok { t with nu := some xs }

/-- `__setattr__` for `attribute = 'var'`. -/
def set_var (t : Emissivities) (value : PyVal) : Except Err Emissivities :=
  match value with
  | .none => .ok { t with var := none }
  | v => do
    let xs ← validateAxis "var" v
    .ok { t with var := some xs }

/-- Width of a 2-D array in row-major rows (NumPy `shape[1]`); a genuine
2-D array is rectangular, so the first row's length is the width. -/
def ncols : List (List ℚ) → ℕ
  | [] => 0
  | r :: _ => r.length

/-- A nested list is a genuine 2-D array only when rectangular. -/
def isRect (m : List (List ℚ)) : Bool :=
  m.all fun r => r.length == ncols m

/-- `__setattr__` for `attribute = 'jnu'`: dependency checks on `nu`/`var`
first, then list/tuple coercion, the 2-D check, the exact-shape check
against `(len(nu), len(var))`, and the non-negativity check. -/
def set_jnu (t : Emissivities) (value : PyVal) : Except Err Emissivities :=
  match value with
  | .none => .ok { t with jnu := none }
  | v =>
    match t.nu with
    | none => .error (.missingDependency "jnu" "nu")
    | some nuL =>
      match t.var with
      | none => .error (.missingDependency "jnu" "var")
      | some varL =>
        match coercePy v with
        | .arr2 m =>
          if ¬ isRect m then .error (.invalidShape "jnu")
          else if ¬ (m.length == nuL.length && ncols m == varL.length) then
            .error (.invalidShape "jnu")
          else if m.any (fun r => r.any fun x => decide (x < 0)) then
            .error .negativeValue
          else .ok { t with jnu := some m }
        | _ => .error (.invalidShape "jnu")

/-- Result of a Python assignment statement as seen on the object: the
object state after the statement together with the exception it raised, if
any (on an exception the prior state is untouched, since the `raise`
happens before `FreezableClass.__setattr__` stores anything). -/
def attempt (t : Emissivities) (r : Except Err Emissivities) :
    Emissivities × Option Err :=
  match r with
  | .ok t' => (t', Option.none)
  | .error e => (t, some e)

/-- `Emissivities.all_set`. -/
def all_set (t : Emissivities) : Bool :=
  t.var_name.isSome && t.var.isSome && t.nu.isSome && t.jnu.isSome

/-- The data-model invariant claimed by the spec for `jnu`: whenever `jnu`
is set, `nu` and `var` are set and `jnu` is 2-D of shape exactly
`(len(nu), len(var))`. -/
def jnuInvariant (t : Emissivities) : Bool :=
  match t.jnu with
  | Option.none => true
  | some m =>
    match t.nu, t.var with
    | some nuL, some varL =>
      m.length == nuL.length && m.all fun r => r.length == varL.length
    | _, _ => false

/-- What the `nu`/`var` setter accepts for a non-`None` array: strictly
increasing with a strictly positive first element (hence nonempty). -/
def validAxis (xs : List ℚ) : Bool :=
  monotonically_increasing xs &&
    match xs with
    | [] => false
    | x :: _ => decide (0 < x)

end Emissivities

/-- Lift an optional lookup / field access to the exception it raises in
Python when the value is absent. -/
def getOpt {α : Type} (o : Option α) (e : Err) : Except Err α :=
  match o with
  | some a => .ok a
  | Option.none => .error e

/-- A column of an `atpy.Table`: 1-D or 2-D numeric data. -/
inductive ColData where
  | one (xs : List ℚ)
  | two (m : List (List ℚ))
  deriving DecidableEq, Repr

/-- Modelled from the spec: an `atpy.Table` (external collaborator) — a
named table holding named columns, added in order. -/
structure ATable where
  name : String
  cols : List (String × ColData)
  deriving DecidableEq, Repr

/-- Modelled from the spec: an `atpy.TableSet` (external collaborator) — a
keyword store (string to string) plus a named-table store. -/
structure TableSet where
  keywords : List (String × String)
  tables : List ATable
  deriving DecidableEq, Repr

namespace TableSet

/-- A freshly created, empty table set. -/
def empty : TableSet := ⟨[], []⟩

/-- `add_keyword` (a later addition for the same key wins on lookup, as in
a dict update). -/
def add_keyword (ts : TableSet) (k v : String) : TableSet :=
  { ts with keywords := ts.keywords ++ [(k, v)] }

/-- Keyword lookup, `table_set.keywords[k]`: the most recent binding. -/
def keyword? (ts : TableSet) (k : String) : Option String :=
  (ts.keywords.reverse.find? fun p => p.1 == k).map (·.2)

/-- `table_set.append(table)`. -/
def append (ts : TableSet) (tab : ATable) : TableSet :=
  { ts with tables := ts.tables ++ [tab] }

/-- Named-table lookup, `table_set['name']`. -/
def table? (ts : TableSet) (n : String) : Option ATable :=
  ts.tables.find? fun tab => tab.name == n

end TableSet

/-- Named-column lookup, `table['name']`. -/
def ATable.col? (tab : ATable) (n : String) : Option ColData :=
  (tab.cols.find? fun p => p.1 == n).map (·.2)

/-- Modelled from the spec: `hyperion.util.functions.bool2str` (not under
`src/`), the boolean-like string encoding of `is_lte`; `from_table_set`
reads it back by comparing against the single accepted spelling `'yes'`. -/
def bool2str (b : Bool) : String := if b then "yes" else "no"

/-- A column's data as the Python value it yields when read back and
assigned through a validated setter. -/
def ColData.toVal : ColData → PyVal
  | .one xs => .arr1 xs
  | .two m => .arr2 m

/-- `Emissivities.to_table_set(table_set)`, with the state of the target
table set made explicit: the completeness check, then the `var_name`
dispatch writing the `emissvar` keyword, the two tables, the `lte` keyword,
and the two appends, in source order.  The returned pair is the table set
as left at return or at raise time, with the raised error if any. -/
def Emissivities.to_table_set (t : Emissivities) (ts : TableSet) :
    TableSet × Option Err :=
  match t.var_name, t.var, t.nu, t.jnu with
  | some vname, some varL, some nuL, some jnuM =>
    if vname = "specific_energy" then
      let ts1 := ts.add_keyword "emissvar" "E"
      let temissvar : ATable := ⟨"emissivity_variable", [(vname, .one varL)]⟩
      let temiss : ATable := ⟨"emissivities", [("nu", .one nuL), ("jnu", .two jnuM)]⟩
      let ts2 := ts1.add_keyword "lte" (bool2str t.is_lte)
      ((ts2.append temiss).append temissvar, Option.none)
    else (ts, some (.unsupportedVariable vname))
  | _, _, _, _ => (ts, some .incompleteTable)

/-- `Emissivities.from_table_set(table_set)` on the receiver `t0`: reads the
`emissvar` keyword, sets `var_name`, reads the variable table's column named
by `var_name`, the `nu` and `jnu` columns of the emissivities table — each
array assigned through the corresponding validated setter — and finally
`is_lte` from the `lte` keyword compared against `'yes'`. -/
def Emissivities.from_table_set (t0 : Emissivities) (ts : TableSet) :
    Except Err Emissivities := do
  let ev ← getOpt (ts.keyword? "emissvar") .keyError
  let t1 ←
    if ev = "E" then Except.ok { t0 with var_name := some "specific_energy" }
    else Except.error (Err.unsupportedVariable ev)
  let temissvar ← getOpt (ts.table? "emissivity_variable") .keyError
  let vname ← getOpt t1.var_name .attributeError
  let varcol ← getOpt (temissvar.col? vname) .keyError
  let t2 ← t1.set_var varcol.toVal
  let temiss ← getOpt (ts.table? "emissivities") .keyError
  let nucol ← getOpt (temiss.col? "nu") .keyError
  let t3 ← t2.set_nu nucol.toVal
  let jnucol ← getOpt (temiss.col? "jnu") .keyError
  let t4 ← t3.set_jnu jnucol.toVal
  let lte ← getOpt (ts.keyword? "lte") .keyError
  Except.ok { t4 with is_lte := lte == "yes" }

/-- One token of the byte stream `hash()` digests: a string chunk
(`str(is_lte)`, the encoded `var_name`) or one array scalar from a
`tostring()` byte dump. -/
inductive HashToken where
  | s (x : String)
  | q (x : ℚ)
  deriving DecidableEq, Repr

/-- The byte stream `hash()` feeds to the MD5 digest, in the fixed source
order: `str(is_lte)`, `var_name`, then the raw bytes of `var`, `nu` and
`jnu` (row-major flatten, as `tostring()` dumps a C-ordered array); like
the source it raises on a `None` field (`var_name.encode` / `.tostring()`
on `None`). -/
def Emissivities.hashStream (t : Emissivities) : Except Err (List HashToken) := do
  let vn ← getOpt t.var_name .attributeError
  let varL ← getOpt t.var .attributeError
  let nuL ← getOpt t.nu .attributeError
  let m ← getOpt t.jnu .attributeError
  Except.ok ([HashToken.s (if t.is_lte then "True" else "False"), HashToken.s vn] ++
    varL.map HashToken.q ++ nuL.map HashToken.q ++ m.flatten.map HashToken.q)

/-- Modelled from the spec: `hashlib.md5` is external; the spec treats the
digest as a pure function of the digested byte stream, so `hash()` is the
arbitrary function `md5` applied to the stream of `hashStream`. -/
def Emissivities.hash (md5 : List HashToken → String) (t : Emissivities) :
    Except Err String :=
  t.hashStream.map md5

/-- `jnu[:, i]`: column `i` of the row-major matrix. -/
def column (m : List (List ℚ)) (i : ℕ) : List ℚ :=
  m.map fun r => r.getD i 0

/-- The in-place update `jnu[:, i] /= c`. -/
def divideColumn (m : List (List ℚ)) (i : ℕ) (c : ℚ) : List (List ℚ) :=
  m.map fun r => r.mapIdx fun j x => if j = i then x / c else x

/-- One iteration of the `normalize` loop: divide column `ivar` by
`integrate_loglog(nu, jnu[:, ivar] / nu)` computed on the current matrix
(`I` is the external log-log quadrature, see `Emissivities.normalize`). -/
def normalizeStep (I : List ℚ → List ℚ → ℚ) (nuL : List ℚ)
    (m : List (List ℚ)) (i : ℕ) : List (List ℚ) :=
  divideColumn m i (I nuL (List.zipWith (· / ·) (column m i) nuL))

/-- `normalize()`: `for ivar in range(len(var))`, rescale column `ivar` of
`jnu` in place.  `integrate_loglog` lives in `hyperion.util.integrate`
(not under `src/`); modelled from the spec as the quadrature parameter `I`.
The fields `var`, `nu`, `jnu` are required: `len(self.var)` raises on an
unset `var`, and the first loop iteration touches `nu` and `jnu` (the
setters never store an empty `var`, so the loop always runs). -/
def Emissivities.normalize (I : List ℚ → List ℚ → ℚ) (t : Emissivities) :
    Except Err Emissivities := do
  let varL ← getOpt t.var .attributeError
  let nuL ← getOpt t.nu .attributeError
  let m ← getOpt t.jnu .attributeError
  let m2 := (List.range varL.length).foldl (normalizeStep I nuL) m
  Except.ok { t with jnu := some m2 }

/-- The table-state effect of `plot(figure, subplot)`: the completeness
check, then the unconditional `self.normalize()`; the rest of the body only
reads the table to draw (matplotlib is external presentation), so the table
after `plot` returns is exactly the normalized table. -/
def Emissivities.plotEffect (I : List ℚ → List ℚ → ℚ) (t : Emissivities) :
    Except Err Emissivities :=
  if t.all_set then t.normalize I else .error .incompleteTable

/-- The opacity-model collaborator (`OpticalProperties`, external to this
file's source): a frequency axis, the matching opacities, and the
Planck-mean-opacity integral `kappa_planck_spectrum(nu, fnu)`.  Modelled
from the spec as data. -/
structure OpticalProperties where
  nu : List ℚ
  kappa : List ℚ
  kappa_planck_spectrum : List ℚ → List ℚ → ℚ

/-- Modelled from the spec: the numerical collaborators `set_lte` calls
that live in `hyperion.util` / `numpy` (not under `src/`): `B_nu` (Planck
spectral radiance at one frequency and temperature — NumPy broadcasts it
elementwise over an axis), `planck_nu_range`, `nu_common` (the merged
common axis), `interp1d_fast_loglog` (log-log interpolation onto a target
axis), `np.logspace` (`n` values log-uniformly spaced across the decade
range of `[a, b]`, taken here on the bounds directly), and the
Stefan-Boltzmann constant `sigma`. -/
structure Externals where
  B_nu : ℚ → ℚ → ℚ
  planck_nu_range : ℚ → ℚ → List ℚ
  nu_common : List ℚ → List ℚ → List ℚ
  interp1d_fast_loglog : List ℚ → List ℚ → List ℚ → List ℚ
  logspace : ℚ → ℚ → ℕ → List ℚ
  sigma : ℚ

/-- The warning logged when the Planck support extends below the opacity
axis. -/
def warnLow : String :=
  "Planck function for lowest temperature not completely covered by opacity function"

/-- The warning logged when the Planck support extends above the opacity
axis. -/
def warnHigh : String :=
  "Planck function for highest temperature not completely covered by opacity function"

/-- `set_lte(optical_properties, n_temp, temp_min, temp_max)`: build the
temperatures, set `is_lte`, assign the merged frequency axis through the
validated `nu` setter, truncate it (with a logged warning, collected in the
returned list) where the Planck support is not covered by the opacity
axis, interpolate the opacity, set `var_name`, and fill `var` and `jnu`
over the temperatures, assigning both through the validated setters.
`np.logspace` returns exactly `n_temp` samples, so the `np.zeros` width
equals the number of loop iterations and the matrix is built directly over
`temperatures`; the elementwise product `kappa_nu * B_nu(nu, T)` requires
the broadcast lengths to agree, as NumPy does. -/
def Emissivities.set_lte (E : Externals) (op : OpticalProperties)
    (t : Emissivities) (n_temp : ℕ) (temp_min temp_max : ℚ) :
    Except Err (Emissivities × List String) := do
  let temperatures := E.logspace temp_min temp_max n_temp
  let t1 := { t with is_lte := true }
  let planck_nu := E.planck_nu_range temp_min temp_max
  let nu1 := E.nu_common planck_nu op.nu
  let t2 ← t1.set_nu (.arr1 nu1)
  let pmin ← getOpt planck_nu.min? .emptyArray
  let omin ← getOpt op.nu.min? .emptyArray
  let (t3, nu3, w1) ←
    if pmin < omin then do
      let nu2 := nu1.filter fun x => omin ≤ x
      let t3 ← t2.set_nu (.arr1 nu2)
      Except.ok (t3, nu2, [warnLow])
    else Except.ok (t2, nu1, ([] : List String))
  let pmax ← getOpt planck_nu.max? .emptyArray
  let omax ← getOpt op.nu.max? .emptyArray
  let (t4, nu4, w2) ←
    if omax < pmax then do
      let nu5 := nu3.filter fun x => x ≤ omax
      let t4 ← t3.set_nu (.arr1 nu5)
      Except.ok (t4, nu5, w1 ++ [warnHigh])
    else Except.ok (t3, nu3, w1)
  let kappa_nu := E.interp1d_fast_loglog op.nu op.kappa nu4
  if kappa_nu.length ≠ nu4.length then Except.error Err.broadcastError
  else do
    let t5 := { t4 with var_name := some "specific_energy" }
    let varL := temperatures.map fun T =>
      4 * E.sigma * T ^ (4 : ℕ) *
        op.kappa_planck_spectrum nu4 (nu4.map fun v => E.B_nu v T)
    let jnuM := (nu4.zip kappa_nu).map fun p =>
      temperatures.map fun T => p.2 * E.B_nu p.1 T
    let t6 ← t5.set_var (.arr1 varL)
    let t7 ← t6.set_jnu (.arr2 jnuM)
    Except.ok (t7, w2)

open Emissivities

/-! ### Setter inversion lemmas -/

theorem exceptBind_ok {α β : Type} (e : Except Err α) (f : α → Except Err β)
    (b : β) : (e >>= f) = Except.ok b ↔ ∃ a, e = Except.ok a ∧ f a = Except.ok b := by
  cases e <;> simp [Bind.bind, Except.bind]

theorem validateAxis_ok_cases (attr : String) (v : PyVal) (xs : List ℚ)
    (h : validateAxis attr v = .ok xs) :
    coercePy v = .arr1 xs ∧ monotonically_increasing xs = true ∧
      ∃ x l, xs = x :: l ∧ 0 < x := by
  unfold validateAxis at h
  split at h
  case h_2 => simp at h
  case h_1 =>
    split at h
    · simp at h
    · split at h
      · simp at h
      · split at h
        · simp at h
        · rename_i x l hc hm hx
          obtain rfl : x :: l = xs := by simpa using h
          exact ⟨hc, by simpa using hm, x, l, rfl, lt_of_not_le hx⟩

theorem validateAxis_eq_ok (attr : String) (v : PyVal) (x : ℚ) (l : List ℚ)
    (hc : coercePy v = .arr1 (x :: l))
    (hm : monotonically_increasing (x :: l) = true) (hx : 0 < x) :
    validateAxis attr v = .ok (x :: l) := by
  unfold validateAxis
  rw [hc]
  dsimp only
  rw [if_neg (by simp [hm]), if_neg (not_le.mpr hx)]

theorem validateAxis_not_arr1 (attr : String) (v : PyVal)
    (h : ∀ ys, coercePy v ≠ .arr1 ys) :
    validateAxis attr v = .error (.invalidShape attr) := by
  unfold validateAxis
  split
  · rename_i hc; exact absurd hc (h _)
  · rfl

theorem validateAxis_not_mono (attr : String) (v : PyVal) (xs : List ℚ)
    (hc : coercePy v = .arr1 xs) (hm : monotonically_increasing xs = false) :
    validateAxis attr v = .error (.notMonotonic attr) := by
  unfold validateAxis
  rw [hc]
  dsimp only
  rw [if_pos (by simp [hm])]

theorem validateAxis_nonpos (attr : String) (v : PyVal) (x : ℚ) (l : List ℚ)
    (hc : coercePy v = .arr1 (x :: l))
    (hm : monotonically_increasing (x :: l) = true) (hx : x ≤ 0) :
    validateAxis attr v = .error (.nonPositive attr) := by
  unfold validateAxis
  rw [hc]
  dsimp only
  rw [if_neg (by simp [hm]), if_pos hx]

theorem set_nu_not_none (t : Emissivities) (v : PyVal) (hv : v ≠ PyVal.none) :
    set_nu t v = (validateAxis "nu" v) >>= fun xs => .ok { t with nu := some xs } := by
  cases v <;> first | exact absurd rfl hv | rfl

theorem set_var_not_none (t : Emissivities) (v : PyVal) (hv : v ≠ PyVal.none) :
    set_var t v = (validateAxis "var" v) >>= fun xs => .ok { t with var := some xs } := by
  cases v <;> first | exact absurd rfl hv | rfl

theorem coercePy_arr1_ne_none (v : PyVal) (xs : List ℚ)
    (hc : coercePy v = .arr1 xs) : v ≠ PyVal.none := by
  cases v <;> simp_all [coercePy]

theorem set_nu_ok_iff (t t' : Emissivities) (v : PyVal) :
    set_nu t v = .ok t' ↔
      ((v = .none ∧ t' = { t with nu := Option.none }) ∨
        ∃ xs, validateAxis "nu" v = .ok xs ∧ t' = { t with nu := some xs }) := by
  cases v with
  | none => simp [set_nu, validateAxis, coercePy, eq_comm]
  | _ =>
    rw [set_nu_not_none _ _ (by simp), exceptBind_ok]
    simp [eq_comm]

theorem set_var_ok_iff (t t' : Emissivities) (v : PyVal) :
    set_var t v = .ok t' ↔
      ((v = .none ∧ t' = { t with var := Option.none }) ∨
        ∃ xs, validateAxis "var" v = .ok xs ∧ t' = { t with var := some xs }) := by
  cases v with
  | none => simp [set_var, validateAxis, coercePy, eq_comm]
  | _ =>
    rw [set_var_not_none _ _ (by simp), exceptBind_ok]
    simp [eq_comm]

theorem set_jnu_ok_iff (t t' : Emissivities) (v : PyVal) :
    set_jnu t v = .ok t' ↔
      ((v = .none ∧ t' = { t with jnu := Option.none }) ∨
        ∃ m nuL varL, t.nu = some nuL ∧ t.var = some varL ∧
          coercePy v = .arr2 m ∧ isRect m = true ∧
          m.length = nuL.length ∧ ncols m = varL.length ∧
          (m.any (fun r => r.any fun x => decide (x < 0))) = false ∧
          t' = { t with jnu := some m }) := by
  cases v <;> cases htn : t.nu <;> cases htv : t.var <;>
    simp [set_jnu, htn, htv, coercePy] <;>
    first
      | exact eq_comm
      | (split_ifs <;> simp_all <;> aesop)

/-! ### C1 -/

/-- C1 fails on the code: the sequence `nu := [1,2]; var := [1];
jnu := [[0],[0]]; nu := [1,2,3]` is accepted write-by-write by the
validated setters, yet leaves `jnu` set with 2 rows while `len(nu) = 3`,
so the shape invariant `jnu.shape = (len(nu), len(var))` is violated after
the last accepted write. -/
theorem jnu_invariant_broken_by_later_nu_write :
    (do
      let t1 ← set_nu Emissivities.init (.arr1 [1, 2])
      let t2 ← set_var t1 (.arr1 [1])
      let t3 ← set_jnu t2 (.arr2 [[0], [0]])
      set_nu t3 (.arr1 [1, 2, 3])) =
      Except.ok { is_lte := false, var_name := Option.none, var := some [1],
                  nu := some [1, 2, 3], jnu := some [[0], [0]] } ∧
    jnuInvariant
      { is_lte := false, var_name := Option.none, var := some [1],
        nu := some [1, 2, 3], jnu := some [[0], [0]] } = false := by
  constructor <;> rfl

/-- C1 (amended): every accepted write to `jnu` itself establishes the
invariant — at the moment a `jnu` assignment is accepted, `nu` and `var`
are set and the stored array has shape exactly `(len(nu), len(var))`.
(Writes to `nu`/`var` validate only the assigned axis and do not re-check
`jnu`, so they can break the invariant, as the counterexample shows.) -/
theorem jnu_setter_establishes_invariant (t t' : Emissivities) (v : PyVal)
    (h : set_jnu t v = .ok t') : jnuInvariant t' = true := by
  rw [set_jnu_ok_iff] at h
  rcases h with ⟨-, rfl⟩ | ⟨m, nuL, varL, hnu, hvar, -, hrect, hlen, hcols, -, rfl⟩
  · simp [jnuInvariant]
  · simp only [jnuInvariant, hnu, hvar]
    simp only [Bool.and_eq_true, beq_iff_eq, List.all_eq_true, hlen,
      beq_self_eq_true, true_and]
    intro r hr
    have hall : ∀ r ∈ m, r.length = ncols m := by
      simpa [isRect, List.all_eq_true] using hrect
    have hr2 := hall r hr
    omega

/-- Witness for the amended C1 at a concrete accepted `jnu` write. -/
theorem jnu_setter_establishes_invariant_witness :
    jnuInvariant { is_lte := false, var_name := Option.none, var := some [1],
                   nu := some [1, 2], jnu := some [[0], [3]] } = true :=
  jnu_setter_establishes_invariant
    { is_lte := false, var_name := Option.none, var := some [1],
      nu := some [1, 2], jnu := Option.none }
    { is_lte := false, var_name := Option.none, var := some [1],
      nu := some [1, 2], jnu := some [[0], [3]] }
    (.arr2 [[0], [3]]) (by rfl)

theorem except_ok_bind {α β : Type} (a : α) (f : α → Except Err β) :
    (Except.ok a >>= f) = f a := rfl

theorem validateAxis_of_validAxis (attr : String) (xs : List ℚ)
    (h : validAxis xs = true) : validateAxis attr (.arr1 xs) = .ok xs := by
  unfold validAxis at h
  cases xs with
  | nil => simp at h
  | cons x l =>
    simp only [Bool.and_eq_true, decide_eq_true_eq] at h
    exact validateAxis_eq_ok attr _ x l rfl h.1 h.2

theorem set_nu_validAxis (t : Emissivities) (xs : List ℚ)
    (h : validAxis xs = true) :
    t.set_nu (.arr1 xs) = .ok { t with nu := some xs } := by
  rw [set_nu_not_none _ _ (by simp), validateAxis_of_validAxis _ _ h]
  rfl

theorem set_var_validAxis (t : Emissivities) (xs : List ℚ)
    (h : validAxis xs = true) :
    t.set_var (.arr1 xs) = .ok { t with var := some xs } := by
  rw [set_var_not_none _ _ (by simp), validateAxis_of_validAxis _ _ h]
  rfl

theorem set_jnu_eq_ok (t : Emissivities) (m : List (List ℚ))
    (nuL varL : List ℚ) (hnu : t.nu = some nuL) (hvar : t.var = some varL)
    (hrect : isRect m = true) (hlen : m.length = nuL.length)
    (hcols : ncols m = varL.length)
    (hneg : (m.any (fun r => r.any fun x => decide (x < 0))) = false) :
    t.set_jnu (.arr2 m) = .ok { t with jnu := some m } :=
  (set_jnu_ok_iff t _ _).mpr
    (.inr ⟨m, nuL, varL, hnu, hvar, rfl, hrect, hlen, hcols, hneg, rfl⟩)

/-! ### C7 -/

/-- C7: `to_table_set` fails with the incomplete-table error unless
`var_name`, `var`, `nu` and `jnu` are all set, fails with the
unsupported-variable error when `var_name` is set but is not
`'specific_energy'`, and in every failing case the error is raised before
any keyword or table has been written, so the target table set comes back
unchanged. -/
theorem to_table_set_error_contract (t : Emissivities) (ts : TableSet) :
    (all_set t = false → t.to_table_set ts = (ts, some .incompleteTable)) ∧
    (∀ v, t.var_name = some v → all_set t = true → v ≠ "specific_energy" →
      t.to_table_set ts = (ts, some (.unsupportedVariable v))) ∧
    (∀ e, (t.to_table_set ts).2 = some e → (t.to_table_set ts).1 = ts) := by
  refine ⟨fun hns => ?_, fun v hvn hall hne => ?_, fun e he => ?_⟩
  · cases hvn : t.var_name <;> cases hv : t.var <;> cases hn : t.nu <;>
      cases hj : t.jnu <;>
      simp_all [Emissivities.to_table_set, all_set]
  · cases hv : t.var <;> cases hn : t.nu <;> cases hj : t.jnu <;>
      simp_all [Emissivities.to_table_set, all_set]
  · cases hvn : t.var_name <;> cases hv : t.var <;> cases hn : t.nu <;>
      cases hj : t.jnu <;>
      simp_all [Emissivities.to_table_set] <;>
      split_ifs at he ⊢ <;> simp_all

/-- Witness for C7: the fresh table is incomplete, and a complete table
with an unrecognized `var_name` hits the unsupported-variable error; both
leave the empty table set untouched. -/
theorem to_table_set_error_contract_witness :
    (Emissivities.init.to_table_set TableSet.empty =
      (TableSet.empty, some Err.incompleteTable)) ∧
    (Emissivities.to_table_set
        { is_lte := false, var_name := some "temperature", var := some [1],
          nu := some [1], jnu := some [[1]] } TableSet.empty =
      (TableSet.empty, some (Err.unsupportedVariable "temperature"))) :=
  ⟨(to_table_set_error_contract Emissivities.init TableSet.empty).1 (by decide),
   (to_table_set_error_contract
      { is_lte := false, var_name := some "temperature", var := some [1],
        nu := some [1], jnu := some [[1]] } TableSet.empty).2.1 "temperature"
      (by rfl) (by decide) (by decide)⟩

/-! ### C3 -/

/-- C3 (amended with the setter invariants as hypotheses): for a complete
table with `var_name = 'specific_energy'` whose fields satisfy the setter
invariants — strictly increasing positive axes, non-negative `jnu` of shape
`(len(nu), len(var))`, as in every table populated through the validated
setters and not later invalidated — serializing into a fresh table set
succeeds and deserializing the result into a fresh `Emissivities`
reproduces the table exactly in all five fields.  (Without the shape
invariant the round trip can raise instead — see the counterexample.) -/
theorem codec_round_trip (t : Emissivities) (varL nuL : List ℚ)
    (m : List (List ℚ)) (hvn : t.var_name = some "specific_energy")
    (hv : t.var = some varL) (hn : t.nu = some nuL) (hj : t.jnu = some m)
    (hva : validAxis varL = true) (hna : validAxis nuL = true)
    (hrect : isRect m = true) (hlen : m.length = nuL.length)
    (hcols : ncols m = varL.length)
    (hneg : (m.any (fun r => r.any fun x => decide (x < 0))) = false) :
    (t.to_table_set TableSet.empty).2 = Option.none ∧
    Emissivities.init.from_table_set (t.to_table_set TableSet.empty).1 =
      .ok t := by
  obtain ⟨lte, vn, va, nu0, j0⟩ := t
  simp only [Emissivities.var_name] at hvn
  simp only [Emissivities.var] at hv
  simp only [Emissivities.nu] at hn
  simp only [Emissivities.jnu] at hj
  subst hvn hv hn hj
  have hts : Emissivities.to_table_set
      ⟨lte, some "specific_energy", some varL, some nuL, some m⟩
      TableSet.empty =
      (⟨[("emissvar", "E"), ("lte", bool2str lte)],
        [⟨"emissivities", [("nu", .one nuL), ("jnu", .two m)]⟩,
         ⟨"emissivity_variable", [("specific_energy", .one varL)]⟩]⟩,
        Option.none) := by
    simp [Emissivities.to_table_set, TableSet.empty, TableSet.add_keyword,
      TableSet.append]
  rw [hts]
  refine ⟨rfl, ?_⟩
  have hjnu : Emissivities.set_jnu
      { is_lte := false, var_name := some "specific_energy",
        var := some varL, nu := some nuL, jnu := Option.none } (.arr2 m) =
      .ok { is_lte := false, var_name := some "specific_energy",
            var := some varL, nu := some nuL, jnu := some m } :=
    set_jnu_eq_ok _ m nuL varL rfl rfl hrect hlen hcols hneg
  cases lte <;>
    simp [Emissivities.from_table_set, TableSet.keyword?, TableSet.table?,
      ATable.col?, getOpt, ColData.toVal, Emissivities.init, bool2str,
      except_ok_bind, set_var_validAxis _ _ hva, set_nu_validAxis _ _ hna,
      hjnu]

/-- Witness for C3 at a concrete complete table. -/
theorem codec_round_trip_witness :
    (Emissivities.to_table_set
        { is_lte := true, var_name := some "specific_energy",
          var := some [1, 2], nu := some [3, 7], jnu := some [[1, 0], [2, 5]] }
        TableSet.empty).2 = Option.none ∧
    Emissivities.init.from_table_set
        (Emissivities.to_table_set
          { is_lte := true, var_name := some "specific_energy",
            var := some [1, 2], nu := some [3, 7], jnu := some [[1, 0], [2, 5]] }
          TableSet.empty).1 =
      .ok { is_lte := true, var_name := some "specific_energy",
            var := some [1, 2], nu := some [3, 7],
            jnu := some [[1, 0], [2, 5]] } :=
  codec_round_trip
    { is_lte := true, var_name := some "specific_energy", var := some [1, 2],
      nu := some [3, 7], jnu := some [[1, 0], [2, 5]] }
    [1, 2] [3, 7] [[1, 0], [2, 5]] (by rfl) (by rfl) (by rfl) (by rfl)
    (by decide) (by decide) (by decide) (by decide) (by decide) (by decide)

/-! ### C4 -/

/-- C4 (amended to non-`None` values): full contract of the validated
`nu`/`var` setters.  A strictly increasing 1-D array with positive first
element is stored exactly as assigned (after list/tuple coercion) with
every other field untouched; a non-1-D, non-`None` value raises the
invalid-shape error, a non-increasing 1-D array the not-monotonic error,
an increasing 1-D array with first element ≤ 0 the non-positive error; in
each failing case the raise happens before the store, so the table is
returned unchanged.  (A `None` assignment bypasses validation and resets
the attribute — see the counterexample.) -/
theorem nu_var_setter_contract (t : Emissivities) (v : PyVal) (x : ℚ)
    (l xs : List ℚ) :
    (coercePy v = .arr1 (x :: l) → monotonically_increasing (x :: l) = true →
      0 < x →
      attempt t (set_nu t v) = ({ t with nu := some (x :: l) }, Option.none) ∧
      attempt t (set_var t v) = ({ t with var := some (x :: l) }, Option.none)) ∧
    (v ≠ .none → (∀ ys, coercePy v ≠ .arr1 ys) →
      attempt t (set_nu t v) = (t, some (.invalidShape "nu")) ∧
      attempt t (set_var t v) = (t, some (.invalidShape "var"))) ∧
    (coercePy v = .arr1 xs → monotonically_increasing xs = false →
      attempt t (set_nu t v) = (t, some (.notMonotonic "nu")) ∧
      attempt t (set_var t v) = (t, some (.notMonotonic "var"))) ∧
    (coercePy v = .arr1 (x :: l) → monotonically_increasing (x :: l) = true →
      x ≤ 0 →
      attempt t (set_nu t v) = (t, some (.nonPositive "nu")) ∧
      attempt t (set_var t v) = (t, some (.nonPositive "var"))) := by
  refine ⟨fun hc hm hx => ?_, fun hv hns => ?_, fun hc hm => ?_, fun hc hm hx => ?_⟩
  · have hv := coercePy_arr1_ne_none _ _ hc
    constructor
    · rw [set_nu_not_none _ _ hv, validateAxis_eq_ok _ _ _ _ hc hm hx]; rfl
    · rw [set_var_not_none _ _ hv, validateAxis_eq_ok _ _ _ _ hc hm hx]; rfl
  · constructor
    · rw [set_nu_not_none _ _ hv, validateAxis_not_arr1 _ _ hns]; rfl
    · rw [set_var_not_none _ _ hv, validateAxis_not_arr1 _ _ hns]; rfl
  · have hv := coercePy_arr1_ne_none _ _ hc
    constructor
    · rw [set_nu_not_none _ _ hv, validateAxis_not_mono _ _ _ hc hm]; rfl
    · rw [set_var_not_none _ _ hv, validateAxis_not_mono _ _ _ hc hm]; rfl
  · have hv := coercePy_arr1_ne_none _ _ hc
    constructor
    · rw [set_nu_not_none _ _ hv, validateAxis_nonpos _ _ _ _ hc hm hx]; rfl
    · rw [set_var_not_none _ _ hv, validateAxis_nonpos _ _ _ _ hc hm hx]; rfl

/-- Witness for C4: concrete instances of all four cases of the `nu`/`var`
setter contract on the freshly constructed table. -/
theorem nu_var_setter_contract_witness :
    (attempt Emissivities.init (set_nu Emissivities.init (.list1 [1, 2])) =
      ({ Emissivities.init with nu := some [1, 2] }, Option.none)) ∧
    (attempt Emissivities.init (set_nu Emissivities.init .other) =
      (Emissivities.init, some (.invalidShape "nu"))) ∧
    (attempt Emissivities.init (set_var Emissivities.init (.arr1 [2, 1])) =
      (Emissivities.init, some (.notMonotonic "var"))) ∧
    (attempt Emissivities.init (set_var Emissivities.init (.arr1 [-1, 1])) =
      (Emissivities.init, some (.nonPositive "var"))) :=
  ⟨((nu_var_setter_contract Emissivities.init (.list1 [1, 2]) 1 [2] []).1
      (by rfl) (by decide) (by decide)).1,
   ((nu_var_setter_contract Emissivities.init .other 0 [] []).2.1
      (by decide) (fun ys h => by simp [coercePy] at h)).1,
   ((nu_var_setter_contract Emissivities.init (.arr1 [2, 1]) 0 [] [2, 1]).2.2.1
      (by rfl) (by decide)).2,
   ((nu_var_setter_contract Emissivities.init (.arr1 [-1, 1]) (-1) [1] []).2.2.2
      (by rfl) (by decide) (by decide)).2⟩

/-! ### C5 -/

/-- C5 (amended to non-`None` values): full contract of the validated
`jnu` setter.  With `nu` absent a non-`None` assignment fails with the
missing-dependency error (likewise `var`); with both present it fails with
the invalid-shape error unless the coerced value is a (rectangular) 2-D
array of shape exactly `(len(nu), len(var))`, fails with the negative-value
error when an entry is `< 0`, and otherwise stores the array; every failure
returns the table unchanged.  (A `None` assignment bypasses all checks and
resets `jnu` — see the counterexample.) -/
theorem jnu_setter_contract (t : Emissivities) (v : PyVal)
    (m : List (List ℚ)) (nuL varL : List ℚ) :
    (t.nu = Option.none → v ≠ .none →
      attempt t (set_jnu t v) = (t, some (.missingDependency "jnu" "nu"))) ∧
    (t.nu = some nuL → t.var = Option.none → v ≠ .none →
      attempt t (set_jnu t v) = (t, some (.missingDependency "jnu" "var"))) ∧
    (t.nu = some nuL → t.var = some varL → v ≠ .none →
      (∀ ys, coercePy v ≠ .arr2 ys) →
      attempt t (set_jnu t v) = (t, some (.invalidShape "jnu"))) ∧
    (t.nu = some nuL → t.var = some varL → coercePy v = .arr2 m →
      isRect m = false →
      attempt t (set_jnu t v) = (t, some (.invalidShape "jnu"))) ∧
    (t.nu = some nuL → t.var = some varL → coercePy v = .arr2 m →
      ¬ (m.length = nuL.length ∧ ncols m = varL.length) →
      attempt t (set_jnu t v) = (t, some (.invalidShape "jnu"))) ∧
    (t.nu = some nuL → t.var = some varL → coercePy v = .arr2 m →
      isRect m = true → m.length = nuL.length → ncols m = varL.length →
      (m.any (fun r => r.any fun x => decide (x < 0))) = true →
      attempt t (set_jnu t v) = (t, some .negativeValue)) ∧
    (t.nu = some nuL → t.var = some varL → coercePy v = .arr2 m →
      isRect m = true → m.length = nuL.length → ncols m = varL.length →
      (m.any (fun r => r.any fun x => decide (x < 0))) = false →
      attempt t (set_jnu t v) = ({ t with jnu := some m }, Option.none)) := by
  refine ⟨fun hnu hv => ?_, fun hnu hvar hv => ?_, fun hnu hvar hv hns => ?_,
    fun hnu hvar hc hrect => ?_, fun hnu hvar hc hshape => ?_,
    fun hnu hvar hc hrect hlen hcols hneg => ?_,
    fun hnu hvar hc hrect hlen hcols hneg => ?_⟩
  · cases v <;> first
      | exact absurd rfl hv
      | simp [attempt, set_jnu, hnu]
  · cases v <;> first
      | exact absurd rfl hv
      | simp [attempt, set_jnu, hnu, hvar]
  · cases v <;> first
      | exact absurd rfl hv
      | exact absurd rfl (hns _)
      | simp [attempt, set_jnu, hnu, hvar, coercePy]
  · cases v <;> simp_all [attempt, set_jnu, coercePy]
  · cases v <;> simp_all [attempt, set_jnu, coercePy]
  · cases v <;> simp_all [attempt, set_jnu, coercePy]
  · cases v <;> simp_all [attempt, set_jnu, coercePy] <;>
      rw [if_neg (by push_neg; exact hneg)]

/-- Witness for C5: concrete instances of the `jnu` setter contract. -/
theorem jnu_setter_contract_witness :
    (attempt Emissivities.init (set_jnu Emissivities.init (.arr2 [[1]])) =
      (Emissivities.init, some (.missingDependency "jnu" "nu"))) ∧
    (attempt { Emissivities.init with nu := some [1, 2], var := some [5] }
        (set_jnu { Emissivities.init with nu := some [1, 2], var := some [5] }
          (.arr2 [[1]])) =
      ({ Emissivities.init with nu := some [1, 2], var := some [5] },
        some (.invalidShape "jnu"))) ∧
    (attempt { Emissivities.init with nu := some [1, 2], var := some [5] }
        (set_jnu { Emissivities.init with nu := some [1, 2], var := some [5] }
          (.arr2 [[1], [-3]])) =
      ({ Emissivities.init with nu := some [1, 2], var := some [5] },
        some .negativeValue)) ∧
    (attempt { Emissivities.init with nu := some [1, 2], var := some [5] }
        (set_jnu { Emissivities.init with nu := some [1, 2], var := some [5] }
          (.list2 [[1], [3]])) =
      ({ is_lte := false, var_name := Option.none, var := some [5],
          nu := some [1, 2], jnu := some [[1], [3]] }, Option.none)) :=
  ⟨(jnu_setter_contract Emissivities.init (.arr2 [[1]]) [] [] []).1
      (by rfl) (by decide),
   (jnu_setter_contract _ (.arr2 [[1]]) [[1]] [1, 2] [5]).2.2.2.2.1
      (by rfl) (by rfl) (by rfl) (by decide),
   (jnu_setter_contract _ (.arr2 [[1], [-3]]) [[1], [-3]] [1, 2] [5]).2.2.2.2.2.1
      (by rfl) (by rfl) (by rfl) (by decide) (by decide) (by decide) (by decide),
   (jnu_setter_contract _ (.list2 [[1], [3]]) [[1], [3]] [1, 2] [5]).2.2.2.2.2.2
      (by rfl) (by rfl) (by rfl) (by decide) (by decide) (by decide) (by decide)⟩

/-! ### C8 -/

/-- C8: the digest is a deterministic pure function of the five fields
`(is_lte, var_name, var, nu, jnu)` digested in that fixed order: repeated
calls agree, and any two tables with identical five field values produce
identical digests, whatever the (fixed) digest function is. -/
theorem hash_pure_function (md5 : List HashToken → String)
    (t1 t2 : Emissivities) (h1 : t1.is_lte = t2.is_lte)
    (h2 : t1.var_name = t2.var_name) (h3 : t1.var = t2.var)
    (h4 : t1.nu = t2.nu) (h5 : t1.jnu = t2.jnu) :
    t1.hash md5 = t2.hash md5 ∧ t1.hash md5 = t1.hash md5 := by
  obtain ⟨a, b, c, d, e⟩ := t1
  obtain ⟨a2, b2, c2, d2, e2⟩ := t2
  simp only [Emissivities.is_lte, Emissivities.var_name, Emissivities.var,
    Emissivities.nu, Emissivities.jnu] at h1 h2 h3 h4 h5
  subst h1 h2 h3 h4 h5
  exact ⟨rfl, rfl⟩

/-- Witness for C8 on two equal-valued complete tables. -/
theorem hash_pure_function_witness :
    Emissivities.hash (fun _ => "d41d8cd98f00b204e9800998ecf8427e")
        { is_lte := true, var_name := some "specific_energy", var := some [1],
          nu := some [2], jnu := some [[3]] } =
      Emissivities.hash (fun _ => "d41d8cd98f00b204e9800998ecf8427e")
        { is_lte := true, var_name := some "specific_energy", var := some [1],
          nu := some [2], jnu := some [[3]] } :=
  (hash_pure_function (fun _ => "d41d8cd98f00b204e9800998ecf8427e")
    { is_lte := true, var_name := some "specific_energy", var := some [1],
      nu := some [2], jnu := some [[3]] }
    { is_lte := true, var_name := some "specific_energy", var := some [1],
      nu := some [2], jnu := some [[3]] }
    rfl rfl rfl rfl rfl).1

/-! ### C9 -/

theorem getD_mapIdx (r : List ℚ) (f : ℕ → ℚ → ℚ) (j : ℕ) (h0 : f j 0 = 0) :
    (r.mapIdx f).getD j 0 = f j (r.getD j 0) := by
  rw [List.getD_eq_get?, List.getD_eq_get?]
  by_cases hj : j < r.length
  · rw [List.get?_eq_get hj,
      List.get?_eq_get (show j < (r.mapIdx f).length by
        simpa [List.length_mapIdx] using hj)]
    simp [List.get_mapIdx]
  · rw [List.get?_eq_none.mpr (show (r.mapIdx f).length ≤ j by
        rw [List.length_mapIdx]; omega),
      List.get?_eq_none.mpr (show r.length ≤ j by omega)]
    simpa using h0.symm

theorem column_divideColumn (m : List (List ℚ)) (i j : ℕ) (c : ℚ) :
    column (divideColumn m i c) j =
      if j = i then (column m j).map (· / c) else column m j := by
  unfold column divideColumn
  rw [List.map_map]
  by_cases hij : j = i
  · subst hij
    rw [if_pos rfl, List.map_map]
    refine List.map_congr_left fun r _ => ?_
    rw [Function.comp_apply, Function.comp_apply, getD_mapIdx _ _ _ (by simp)]
    simp
  · rw [if_neg hij]
    refine List.map_congr_left fun r _ => ?_
    rw [Function.comp_apply, getD_mapIdx _ _ _ (by simp [hij])]
    simp [hij]

theorem column_foldl_normalizeStep (I : List ℚ → List ℚ → ℚ) (nuL : List ℚ)
    (L : List ℕ) (hL : L.Nodup) (m : List (List ℚ)) (j : ℕ) :
    column (L.foldl (normalizeStep I nuL) m) j =
      if j ∈ L then
        (column m j).map (· / I nuL (List.zipWith (· / ·) (column m j) nuL))
      else column m j := by
  induction L generalizing m with
  | nil => simp
  | cons a L ih =>
    obtain ⟨haL, hLnd⟩ := List.nodup_cons.mp hL
    simp only [List.foldl_cons]
    rw [ih hLnd]
    rcases eq_or_ne j a with rfl | hja
    · rw [if_neg haL, if_pos (List.mem_cons_self _ _)]
      unfold normalizeStep
      rw [column_divideColumn, if_pos rfl]
    · unfold normalizeStep
      rw [column_divideColumn, if_neg hja]
      by_cases hjL : j ∈ L
      · rw [if_pos hjL, if_pos (List.mem_cons_of_mem _ hjL)]
      · rw [if_neg hjL, if_neg (by simp [hja, hjL])]

theorem zipWith_div_map_div (f nuL : List ℚ) (c : ℚ) :
    List.zipWith (· / ·) (f.map (· / c)) nuL =
      (List.zipWith (· / ·) f nuL).map (· / c) := by
  induction f generalizing nuL with
  | nil => simp
  | cons x xs ih => cases nuL <;> simp [ih, div_right_comm]

/-- C9: `normalize()` replaces, for every column index `i < len(var)`,
`jnu[:, i]` by `jnu[:, i] / integrate_loglog(nu, jnu[:, i] / nu)`, mutating
only `jnu` (every other field is unchanged, and columns past `len(var)`
are untouched); and whenever the quadrature `I` is degree-1 homogeneous
(as exact log-log integration is) and the column's norm is nonzero, the
normalized column's integral `I nuL (jnu[:, i] / nu)` equals 1. -/
theorem normalize_contract (I : List ℚ → List ℚ → ℚ) (t t' : Emissivities)
    (varL nuL : List ℚ) (m : List (List ℚ)) (hv : t.var = some varL)
    (hn : t.nu = some nuL) (hj : t.jnu = some m)
    (h : t.normalize I = .ok t') :
    t'.is_lte = t.is_lte ∧ t'.var_name = t.var_name ∧ t'.var = t.var ∧
    t'.nu = t.nu ∧
    ∃ m2, t'.jnu = some m2 ∧
      (∀ i, i < varL.length → column m2 i =
        (column m i).map (· / I nuL (List.zipWith (· / ·) (column m i) nuL))) ∧
      (∀ i, varL.length ≤ i → column m2 i = column m i) ∧
      ((∀ c : ℚ, c ≠ 0 → ∀ f : List ℚ, I nuL (f.map (· / c)) = I nuL f / c) →
        ∀ i, i < varL.length →
          I nuL (List.zipWith (· / ·) (column m i) nuL) ≠ 0 →
          I nuL (List.zipWith (· / ·) (column m2 i) nuL) = 1) := by
  unfold Emissivities.normalize at h
  rw [hv, hn, hj] at h
  simp only [getOpt, except_ok_bind] at h
  obtain rfl : { is_lte := t.is_lte, var_name := t.var_name, var := some varL, nu := some nuL, jnu := some ((List.range varL.length).foldl (normalizeStep I nuL) m) } = t' := by
    simpa using h
  refine ⟨rfl, rfl, hv.symm, hn.symm, _, rfl, fun i hi => ?_, fun i hi => ?_,
    fun hI i hi hc => ?_⟩
  · rw [column_foldl_normalizeStep _ _ _ (List.nodup_range _),
      if_pos (List.mem_range.mpr hi)]
  · rw [column_foldl_normalizeStep _ _ _ (List.nodup_range _),
      if_neg (by simpa using by omega)]
  · rw [column_foldl_normalizeStep _ _ _ (List.nodup_range _),
      if_pos (List.mem_range.mpr hi), zipWith_div_map_div,
      hI _ hc _, div_self hc]

/-- Witness for C9: a concrete 2-by-1 table normalized with the constant-1
quadrature (the conclusion's homogeneity-conditional part stays
conditional). -/
theorem normalize_contract_witness :
    (Emissivities.is_lte
        { is_lte := false, var_name := some "specific_energy", var := some [1],
          nu := some [1, 2], jnu := some [[2 / 1], [6 / 1]] } =
      Emissivities.is_lte
        { is_lte := false, var_name := some "specific_energy", var := some [1],
          nu := some [1, 2], jnu := some [[2], [6]] }) ∧
    (Emissivities.var_name
        { is_lte := false, var_name := some "specific_energy", var := some [1],
          nu := some [1, 2], jnu := some [[2 / 1], [6 / 1]] } =
      Emissivities.var_name
        { is_lte := false, var_name := some "specific_energy", var := some [1],
          nu := some [1, 2], jnu := some [[2], [6]] }) ∧
    (Emissivities.var
        { is_lte := false, var_name := some "specific_energy", var := some [1],
          nu := some [1, 2], jnu := some [[2 / 1], [6 / 1]] } =
      Emissivities.var
        { is_lte := false, var_name := some "specific_energy", var := some [1],
          nu := some [1, 2], jnu := some [[2], [6]] }) ∧
    (Emissivities.nu
        { is_lte := false, var_name := some "specific_energy", var := some [1],
          nu := some [1, 2], jnu := some [[2 / 1], [6 / 1]] } =
      Emissivities.nu
        { is_lte := false, var_name := some "specific_energy", var := some [1],
          nu := some [1, 2], jnu := some [[2], [6]] }) ∧
    ∃ m2, Emissivities.jnu
        { is_lte := false, var_name := some "specific_energy", var := some [1],
          nu := some [1, 2], jnu := some [[2 / 1], [6 / 1]] } = some m2 ∧
      (∀ i, i < ([1] : List ℚ).length → column m2 i =
        (column [[2], [6]] i).map
          (· / (fun _ _ => (1 : ℚ)) [1, 2]
            (List.zipWith (· / ·) (column [[2], [6]] i) [1, 2]))) ∧
      (∀ i, ([1] : List ℚ).length ≤ i → column m2 i = column [[2], [6]] i) ∧
      ((∀ c : ℚ, c ≠ 0 → ∀ f : List ℚ,
          (fun _ _ => (1 : ℚ)) [1, 2] (f.map (· / c)) =
            (fun _ _ => (1 : ℚ)) [1, 2] f / c) →
        ∀ i, i < ([1] : List ℚ).length →
          (fun _ _ => (1 : ℚ)) [1, 2]
            (List.zipWith (· / ·) (column [[2], [6]] i) [1, 2]) ≠ 0 →
          (fun _ _ => (1 : ℚ)) [1, 2]
            (List.zipWith (· / ·) (column m2 i) [1, 2]) = 1) :=
  normalize_contract (fun _ _ => (1 : ℚ))
    { is_lte := false, var_name := some "specific_energy", var := some [1],
      nu := some [1, 2], jnu := some [[2], [6]] }
    { is_lte := false, var_name := some "specific_energy", var := some [1],
      nu := some [1, 2], jnu := some [[2 / 1], [6 / 1]] }
    [1] [1, 2] [[2], [6]] rfl rfl rfl (by rfl)

/-! ### C10 -/

theorem shape_divideColumn (m : List (List ℚ)) (i : ℕ) (c : ℚ) :
    (divideColumn m i c).map List.length = m.map List.length := by
  unfold divideColumn
  rw [List.map_map]
  exact List.map_congr_left fun r _ => by simp [List.length_mapIdx]

theorem shape_foldl_normalizeStep (I : List ℚ → List ℚ → ℚ) (nuL : List ℚ)
    (L : List ℕ) (m : List (List ℚ)) :
    (L.foldl (normalizeStep I nuL) m).map List.length = m.map List.length := by
  induction L generalizing m with
  | nil => rfl
  | cons a L ih =>
    simp only [List.foldl_cons]
    rw [ih]
    exact shape_divideColumn m a _

theorem eq_of_flatten_eq (m m2 : List (List ℚ))
    (hshape : m.map List.length = m2.map List.length)
    (hf : m.flatten = m2.flatten) : m = m2 := by
  induction m generalizing m2 with
  | nil => cases m2 <;> simp_all
  | cons r rs ih =>
    cases m2 with
    | nil => simp at hshape
    | cons r2 rs2 =>
      simp only [List.map_cons, List.cons.injEq] at hshape
      simp only [List.flatten_cons] at hf
      obtain ⟨h1, h2⟩ := List.append_inj hf hshape.1
      rw [h1, ih rs2 hshape.2 h2]

/-- C10: `plot()` on a complete table is not read-only — its table-state
effect is exactly the unconditional `normalize()` it performs before
drawing; it leaves `is_lte`, `var_name`, `var` and `nu` alone, and whenever
the rescaling actually changed `jnu`, the digested byte stream — and hence
the digest, for any injective digest function — differs between the table
before and after plotting. -/
theorem plot_mutates (I : List ℚ → List ℚ → ℚ) (t t' : Emissivities)
    (h : all_set t = true) (hp : t.plotEffect I = .ok t') :
    t.plotEffect I = t.normalize I ∧
    t'.is_lte = t.is_lte ∧ t'.var_name = t.var_name ∧ t'.var = t.var ∧
    t'.nu = t.nu ∧
    (t'.jnu ≠ t.jnu →
      t'.hashStream ≠ t.hashStream ∧
      ∀ md5 : List HashToken → String,
        Function.Injective md5 → t'.hash md5 ≠ t.hash md5) := by
  have hpe : t.plotEffect I = t.normalize I := by
    unfold Emissivities.plotEffect
    rw [if_pos h]
  rw [hpe] at hp
  refine ⟨hpe, ?_⟩
  unfold all_set at h
  simp only [Bool.and_eq_true, Option.isSome_iff_exists] at h
  obtain ⟨⟨⟨⟨vn, hvn⟩, varL, hv⟩, nuL, hn⟩, m, hj⟩ := h
  unfold Emissivities.normalize at hp
  rw [hv, hn, hj] at hp
  simp only [getOpt, except_ok_bind] at hp
  obtain rfl : { is_lte := t.is_lte, var_name := t.var_name, var := some varL, nu := some nuL, jnu := some ((List.range varL.length).foldl (normalizeStep I nuL) m) } = t' := by
    simpa using hp
  refine ⟨rfl, rfl, hv.symm, hn.symm, fun hjne => ?_⟩
  set m2 := (List.range varL.length).foldl (normalizeStep I nuL) m with hm2
  have hmne : m2 ≠ m := by
    intro hEq
    rw [hj] at hjne
    exact hjne (by simp [hEq])
  have hstreams : Emissivities.hashStream
      ⟨t.is_lte, t.var_name, some varL, some nuL, some m2⟩ ≠
      t.hashStream := by
    intro hEq
    unfold Emissivities.hashStream at hEq
    rw [hvn, hv, hn, hj] at hEq
    simp only [getOpt, except_ok_bind, Except.ok.injEq,
      List.append_cancel_left_eq, List.cons_append, List.cons.injEq,
      true_and] at hEq
    have hflat : m2.flatten = m.flatten :=
      List.map_injective_iff.mpr (fun a b hab => by cases hab; rfl) hEq
    exact hmne (eq_of_flatten_eq m2 m
      (by rw [hm2, shape_foldl_normalizeStep]) hflat)
  refine ⟨hstreams, fun md5 hinj hEq => ?_⟩
  have hso : Emissivities.hashStream
      ⟨t.is_lte, t.var_name, some varL, some nuL, some m2⟩ =
      Except.ok ([HashToken.s (if t.is_lte then "True" else "False"),
        HashToken.s vn] ++ varL.map HashToken.q ++ nuL.map HashToken.q ++
        m2.flatten.map HashToken.q) := by
    unfold Emissivities.hashStream
    rw [hvn]
    simp [getOpt, except_ok_bind]
  have hst : t.hashStream =
      Except.ok ([HashToken.s (if t.is_lte then "True" else "False"),
        HashToken.s vn] ++ varL.map HashToken.q ++ nuL.map HashToken.q ++
        m.flatten.map HashToken.q) := by
    unfold Emissivities.hashStream
    rw [hvn, hv, hn, hj]
    simp [getOpt, except_ok_bind]
  unfold Emissivities.hash at hEq
  rw [hso, hst] at hEq
  simp only [Except.map, Except.ok.injEq] at hEq
  exact hstreams (hso.trans ((congrArg Except.ok (hinj hEq)).trans hst.symm))

/-- Witness for C10 at a concrete complete table and the constant-1
quadrature. -/
theorem plot_mutates_witness :
    Emissivities.plotEffect (fun _ _ => (1 : ℚ)) (⟨true, some "specific_energy", some [1], some [1, 2], some [[2], [6]]⟩ : Emissivities) =
      Emissivities.normalize (fun _ _ => (1 : ℚ)) (⟨true, some "specific_energy", some [1], some [1, 2], some [[2], [6]]⟩ : Emissivities) ∧
    (⟨true, some "specific_energy", some [1], some [1, 2], some [[2 / 1], [6 / 1]]⟩ : Emissivities).is_lte = (⟨true, some "specific_energy", some [1], some [1, 2], some [[2], [6]]⟩ : Emissivities).is_lte ∧
    (⟨true, some "specific_energy", some [1], some [1, 2], some [[2 / 1], [6 / 1]]⟩ : Emissivities).var_name = (⟨true, some "specific_energy", some [1], some [1, 2], some [[2], [6]]⟩ : Emissivities).var_name ∧
    (⟨true, some "specific_energy", some [1], some [1, 2], some [[2 / 1], [6 / 1]]⟩ : Emissivities).var = (⟨true, some "specific_energy", some [1], some [1, 2], some [[2], [6]]⟩ : Emissivities).var ∧
    (⟨true, some "specific_energy", some [1], some [1, 2], some [[2 / 1], [6 / 1]]⟩ : Emissivities).nu = (⟨true, some "specific_energy", some [1], some [1, 2], some [[2], [6]]⟩ : Emissivities).nu ∧
    ((⟨true, some "specific_energy", some [1], some [1, 2], some [[2 / 1], [6 / 1]]⟩ : Emissivities).jnu ≠ (⟨true, some "specific_energy", some [1], some [1, 2], some [[2], [6]]⟩ : Emissivities).jnu →
      (⟨true, some "specific_energy", some [1], some [1, 2], some [[2 / 1], [6 / 1]]⟩ : Emissivities).hashStream ≠ (⟨true, some "specific_energy", some [1], some [1, 2], some [[2], [6]]⟩ : Emissivities).hashStream ∧
      ∀ md5 : List HashToken → String, Function.Injective md5 →
        (⟨true, some "specific_energy", some [1], some [1, 2], some [[2 / 1], [6 / 1]]⟩ : Emissivities).hash md5 ≠ (⟨true, some "specific_energy", some [1], some [1, 2], some [[2], [6]]⟩ : Emissivities).hash md5) :=
  plot_mutates (fun _ _ => (1 : ℚ)) (⟨true, some "specific_energy", some [1], some [1, 2], some [[2], [6]]⟩ : Emissivities) (⟨true, some "specific_energy", some [1], some [1, 2], some [[2 / 1], [6 / 1]]⟩ : Emissivities) (by rfl) (by rfl)

/-! ### C2 and C6 -/

theorem getOpt_ok {α : Type} (o : Option α) (e : Err) (a : α) :
    getOpt o e = .ok a ↔ o = some a := by
  cases o <;> simp [getOpt]

theorem set_nu_arr1_inv (t t' : Emissivities) (xs : List ℚ)
    (h : t.set_nu (.arr1 xs) = .ok t') :
    t' = { t with nu := some xs } ∧ validAxis xs = true := by
  rw [set_nu_ok_iff] at h
  rcases h with ⟨h, -⟩ | ⟨ys, hva, rfl⟩
  · exact absurd h (by simp)
  · obtain ⟨hc, hm, x, l, rfl, hx⟩ := validateAxis_ok_cases _ _ _ hva
    obtain rfl : xs = x :: l := by simpa [coercePy] using hc
    exact ⟨rfl, by simp [validAxis, hm, hx]⟩

theorem set_var_arr1_inv (t t' : Emissivities) (xs : List ℚ)
    (h : t.set_var (.arr1 xs) = .ok t') :
    t' = { t with var := some xs } ∧ validAxis xs = true := by
  rw [set_var_ok_iff] at h
  rcases h with ⟨h, -⟩ | ⟨ys, hva, rfl⟩
  · exact absurd h (by simp)
  · obtain ⟨hc, hm, x, l, rfl, hx⟩ := validateAxis_ok_cases _ _ _ hva
    obtain rfl : xs = x :: l := by simpa [coercePy] using hc
    exact ⟨rfl, by simp [validAxis, hm, hx]⟩

theorem set_jnu_arr2_inv (t t' : Emissivities) (m : List (List ℚ))
    (h : t.set_jnu (.arr2 m) = .ok t') : t' = { t with jnu := some m } := by
  rw [set_jnu_ok_iff] at h
  rcases h with ⟨h, -⟩ | ⟨m', _, _, _, _, hc, _, _, _, _, rfl⟩
  · exact absurd h (by simp)
  · obtain rfl : m = m' := by simpa [coercePy] using hc
    rfl

theorem set_lte_ok_inv (E : Externals) (op : OpticalProperties)
    (t tout : Emissivities) (n_temp : ℕ) (tmin tmax : ℚ) (w : List String)
    (h : t.set_lte E op n_temp tmin tmax = .ok (tout, w)) :
    ∃ pmin omin pmax omax nuF,
      (E.planck_nu_range tmin tmax).min? = some pmin ∧
      op.nu.min? = some omin ∧
      (E.planck_nu_range tmin tmax).max? = some pmax ∧
      op.nu.max? = some omax ∧
      nuF = (if omax < pmax then
               (if pmin < omin then
                  (E.nu_common (E.planck_nu_range tmin tmax) op.nu).filter
                    (fun x => omin ≤ x)
                else E.nu_common (E.planck_nu_range tmin tmax) op.nu).filter
                 (fun x => x ≤ omax)
             else if pmin < omin then
               (E.nu_common (E.planck_nu_range tmin tmax) op.nu).filter
                 (fun x => omin ≤ x)
             else E.nu_common (E.planck_nu_range tmin tmax) op.nu) ∧
      w = (if pmin < omin then [warnLow] else []) ++
          (if omax < pmax then [warnHigh] else []) ∧
      (E.interp1d_fast_loglog op.nu op.kappa nuF).length = nuF.length ∧
      validAxis nuF = true ∧
      validAxis ((E.logspace tmin tmax n_temp).map fun T =>
        4 * E.sigma * T ^ (4 : ℕ) *
          op.kappa_planck_spectrum nuF (nuF.map fun v => E.B_nu v T)) = true ∧
      tout = ⟨true, some "specific_energy",
        some ((E.logspace tmin tmax n_temp).map fun T =>
          4 * E.sigma * T ^ (4 : ℕ) *
            op.kappa_planck_spectrum nuF (nuF.map fun v => E.B_nu v T)),
        some nuF,
        some ((nuF.zip (E.interp1d_fast_loglog op.nu op.kappa nuF)).map fun p =>
          (E.logspace tmin tmax n_temp).map fun T => p.2 * E.B_nu p.1 T)⟩ := by
  unfold Emissivities.set_lte at h
  rw [exceptBind_ok] at h
  obtain ⟨t2, ht2, h⟩ := h
  obtain ⟨rfl, hvnu1⟩ := set_nu_arr1_inv _ _ _ ht2
  rw [exceptBind_ok] at h
  obtain ⟨pmin, hpmin, h⟩ := h
  rw [getOpt_ok] at hpmin
  rw [exceptBind_ok] at h
  obtain ⟨omin, homin, h⟩ := h
  rw [getOpt_ok] at homin
  dsimp only at h
  by_cases hlo : pmin < omin
  · rw [if_pos hlo] at h
    rw [exceptBind_ok] at h
    obtain ⟨t3, ht3, h⟩ := h
    obtain ⟨rfl, hvnu2⟩ := set_nu_arr1_inv _ _ _ ht3
    rw [except_ok_bind] at h
    dsimp only at h
    rw [exceptBind_ok] at h
    obtain ⟨pmax, hpmax, h⟩ := h
    rw [getOpt_ok] at hpmax
    rw [exceptBind_ok] at h
    obtain ⟨omax, homax, h⟩ := h
    rw [getOpt_ok] at homax
    by_cases hhi : omax < pmax
    · rw [if_pos hhi] at h
      rw [exceptBind_ok] at h
      obtain ⟨t4, ht4, h⟩ := h
      obtain ⟨rfl, hvnu5⟩ := set_nu_arr1_inv _ _ _ ht4
      rw [except_ok_bind] at h
      dsimp only at h
      by_cases hk : (E.interp1d_fast_loglog op.nu op.kappa
          ((E.nu_common (E.planck_nu_range tmin tmax) op.nu).filter
            (fun x => decide (omin ≤ x)) |>.filter
              (fun x => decide (x ≤ omax)))).length ≠
          ((E.nu_common (E.planck_nu_range tmin tmax) op.nu).filter
            (fun x => decide (omin ≤ x)) |>.filter
              (fun x => decide (x ≤ omax))).length
      · rw [if_pos hk] at h
        exact absurd h (by simp)
      · rw [if_neg hk] at h
        rw [exceptBind_ok] at h
        obtain ⟨t6, ht6, h⟩ := h
        obtain ⟨rfl, hvvar⟩ := set_var_arr1_inv _ _ _ ht6
        rw [exceptBind_ok] at h
        obtain ⟨t7, ht7, h⟩ := h
        have h7 := set_jnu_arr2_inv _ _ _ ht7
        subst h7
        rw [Except.ok.injEq, Prod.mk.injEq] at h
        obtain ⟨h1, h2⟩ := h
        subst h1
        subst h2
        refine ⟨pmin, omin, pmax, omax, _, hpmin, homin, hpmax, homax,
          (by rw [if_pos hhi, if_pos hlo]), (by rw [if_pos hhi, if_pos hlo]),
          not_ne_iff.mp hk, hvnu5, hvvar, rfl⟩
    · rw [if_neg hhi] at h
      rw [except_ok_bind] at h
      dsimp only at h
      by_cases hk : (E.interp1d_fast_loglog op.nu op.kappa
          ((E.nu_common (E.planck_nu_range tmin tmax) op.nu).filter
            (fun x => decide (omin ≤ x)))).length ≠
          ((E.nu_common (E.planck_nu_range tmin tmax) op.nu).filter
            (fun x => decide (omin ≤ x))).length
      · rw [if_pos hk] at h
        exact absurd h (by simp)
      · rw [if_neg hk] at h
        rw [exceptBind_ok] at h
        obtain ⟨t6, ht6, h⟩ := h
        obtain ⟨rfl, hvvar⟩ := set_var_arr1_inv _ _ _ ht6
        rw [exceptBind_ok] at h
        obtain ⟨t7, ht7, h⟩ := h
        have h7 := set_jnu_arr2_inv _ _ _ ht7
        subst h7
        rw [Except.ok.injEq, Prod.mk.injEq] at h
        obtain ⟨h1, h2⟩ := h
        subst h1
        subst h2
        refine ⟨pmin, omin, pmax, omax, _, hpmin, homin, hpmax, homax,
          (by rw [if_neg hhi, if_pos hlo]), (by rw [if_neg hhi, if_pos hlo]; simp),
          not_ne_iff.mp hk, hvnu2, hvvar, rfl⟩
  · rw [if_neg hlo] at h
    rw [except_ok_bind] at h
    dsimp only at h
    rw [exceptBind_ok] at h
    obtain ⟨pmax, hpmax, h⟩ := h
    rw [getOpt_ok] at hpmax
    rw [exceptBind_ok] at h
    obtain ⟨omax, homax, h⟩ := h
    rw [getOpt_ok] at homax
    by_cases hhi : omax < pmax
    · rw [if_pos hhi] at h
      rw [exceptBind_ok] at h
      obtain ⟨t4, ht4, h⟩ := h
      obtain ⟨rfl, hvnu5⟩ := set_nu_arr1_inv _ _ _ ht4
      rw [except_ok_bind] at h
      dsimp only at h
      by_cases hk : (E.interp1d_fast_loglog op.nu op.kappa
          ((E.nu_common (E.planck_nu_range tmin tmax) op.nu).filter
            (fun x => decide (x ≤ omax)))).length ≠
          ((E.nu_common (E.planck_nu_range tmin tmax) op.nu).filter
            (fun x => decide (x ≤ omax))).length
      · rw [if_pos hk] at h
        exact absurd h (by simp)
      · rw [if_neg hk] at h
        rw [exceptBind_ok] at h
        obtain ⟨t6, ht6, h⟩ := h
        obtain ⟨rfl, hvvar⟩ := set_var_arr1_inv _ _ _ ht6
        rw [exceptBind_ok] at h
        obtain ⟨t7, ht7, h⟩ := h
        have h7 := set_jnu_arr2_inv _ _ _ ht7
        subst h7
        rw [Except.ok.injEq, Prod.mk.injEq] at h
        obtain ⟨h1, h2⟩ := h
        subst h1
        subst h2
        refine ⟨pmin, omin, pmax, omax, _, hpmin, homin, hpmax, homax,
          (by rw [if_pos hhi, if_neg hlo]), (by rw [if_pos hhi, if_neg hlo]),
          not_ne_iff.mp hk, hvnu5, hvvar, rfl⟩
    · rw [if_neg hhi] at h
      rw [except_ok_bind] at h
      dsimp only at h
      by_cases hk : (E.interp1d_fast_loglog op.nu op.kappa
          (E.nu_common (E.planck_nu_range tmin tmax) op.nu)).length ≠
          (E.nu_common (E.planck_nu_range tmin tmax) op.nu).length
      · rw [if_pos hk] at h
        exact absurd h (by simp)
      · rw [if_neg hk] at h
        rw [exceptBind_ok] at h
        obtain ⟨t6, ht6, h⟩ := h
        obtain ⟨rfl, hvvar⟩ := set_var_arr1_inv _ _ _ ht6
        rw [exceptBind_ok] at h
        obtain ⟨t7, ht7, h⟩ := h
        have h7 := set_jnu_arr2_inv _ _ _ ht7
        subst h7
        rw [Except.ok.injEq, Prod.mk.injEq] at h
        obtain ⟨h1, h2⟩ := h
        subst h1
        subst h2
        refine ⟨pmin, omin, pmax, omax, _, hpmin, homin, hpmax, homax,
          (by rw [if_neg hhi, if_neg hlo]), (by rw [if_neg hhi, if_neg hlo]; simp),
          not_ne_iff.mp hk, hvnu1, hvvar, rfl⟩

/-- C2: whenever `set_lte(optical_properties, n_temp, temp_min, temp_max)`
succeeds, the table holds, over the `n_temp` temperatures
`np.logspace(log10(temp_min), log10(temp_max), n_temp)` (modelled as the
log-uniform sampler `E.logspace`, which returns `n_temp` samples — the
`hlen` contract), `var[i] = 4 * sigma * T_i ^ 4 * kappa_planck_i` with
`kappa_planck_i` the opacity model's Planck-mean opacity of the spectrum
`B_nu(nu, T_i)`, and `jnu[:, i] = kappa_nu * B_nu(nu, T_i)` with `kappa_nu`
the opacity interpolated onto the final frequency axis; `var_name` is
`'specific_energy'`, `is_lte` is set, and the stored `nu` and `var` passed
the validated setters (jnu's shape was checked against them in turn). -/
theorem set_lte_spec (E : Externals) (op : OpticalProperties)
    (t tout : Emissivities) (n_temp : ℕ) (tmin tmax : ℚ) (w : List String)
    (h : t.set_lte E op n_temp tmin tmax = .ok (tout, w))
    (hlen : (E.logspace tmin tmax n_temp).length = n_temp) :
    tout.is_lte = true ∧
    tout.var_name = some "specific_energy" ∧
    ∃ nuF, tout.nu = some nuF ∧
      validAxis nuF = true ∧
      (E.interp1d_fast_loglog op.nu op.kappa nuF).length = nuF.length ∧
      tout.var = some ((E.logspace tmin tmax n_temp).map fun T =>
        4 * E.sigma * T ^ (4 : ℕ) *
          op.kappa_planck_spectrum nuF (nuF.map fun v => E.B_nu v T)) ∧
      validAxis ((E.logspace tmin tmax n_temp).map fun T =>
        4 * E.sigma * T ^ (4 : ℕ) *
          op.kappa_planck_spectrum nuF (nuF.map fun v => E.B_nu v T)) = true ∧
      tout.jnu = some ((nuF.zip (E.interp1d_fast_loglog op.nu op.kappa nuF)).map
        fun p => (E.logspace tmin tmax n_temp).map fun T => p.2 * E.B_nu p.1 T) ∧
      (∀ varLx, tout.var = some varLx → varLx.length = n_temp) ∧
      (∀ mx, tout.jnu = some mx →
        mx.length = nuF.length ∧ ∀ r ∈ mx, r.length = n_temp) := by
  obtain ⟨pmin, omin, pmax, omax, nuF, -, -, -, -, -, -, hk, hvn, hvv, rfl⟩ :=
    set_lte_ok_inv E op t tout n_temp tmin tmax w h
  refine ⟨rfl, rfl, nuF, rfl, hvn, hk, rfl, hvv, rfl, ?_, ?_⟩
  · intro varLx hx
    obtain rfl : _ = varLx := by simpa using hx
    simp [hlen]
  · intro mx hx
    obtain rfl : _ = mx := by simpa using hx
    constructor
    · rw [List.length_map, List.length_zip, hk, min_self]
    · intro r hr
      simp only [List.mem_map] at hr
      obtain ⟨p, -, rfl⟩ := hr
      rw [List.length_map, hlen]

/-- C6: during `set_lte`, when the Planck support's minimum lies below
`optical_properties.nu.min()`, the low-coverage warning is logged and the
merged axis is truncated to elements `>= omin` — and symmetrically at the
top — while the computation proceeds to a success on the truncated axis;
with full coverage on a side, that side's warning is not logged and no
truncation happens there. -/
theorem set_lte_truncation (E : Externals) (op : OpticalProperties)
    (t tout : Emissivities) (n_temp : ℕ) (tmin tmax pmin omin pmax omax : ℚ)
    (w : List String)
    (h : t.set_lte E op n_temp tmin tmax = .ok (tout, w))
    (hpmin : (E.planck_nu_range tmin tmax).min? = some pmin)
    (homin : op.nu.min? = some omin)
    (hpmax : (E.planck_nu_range tmin tmax).max? = some pmax)
    (homax : op.nu.max? = some omax) :
    ∃ nuF, tout.nu = some nuF ∧
      nuF = (if omax < pmax then
               (if pmin < omin then
                  (E.nu_common (E.planck_nu_range tmin tmax) op.nu).filter
                    (fun x => omin ≤ x)
                else E.nu_common (E.planck_nu_range tmin tmax) op.nu).filter
                 (fun x => x ≤ omax)
             else if pmin < omin then
               (E.nu_common (E.planck_nu_range tmin tmax) op.nu).filter
                 (fun x => omin ≤ x)
             else E.nu_common (E.planck_nu_range tmin tmax) op.nu) ∧
      w = (if pmin < omin then [warnLow] else []) ++
          (if omax < pmax then [warnHigh] else []) ∧
      (pmin < omin → warnLow ∈ w ∧ ∀ x ∈ nuF, omin ≤ x) ∧
      (¬ pmin < omin → warnLow ∉ w) ∧
      (omax < pmax → warnHigh ∈ w ∧ ∀ x ∈ nuF, x ≤ omax) ∧
      (¬ omax < pmax → warnHigh ∉ w) := by
  obtain ⟨pmin2, omin2, pmax2, omax2, nuF, hpmin2, homin2, hpmax2, homax2,
    hnuF, hw, -, -, -, rfl⟩ :=
    set_lte_ok_inv E op t tout n_temp tmin tmax w h
  obtain rfl : pmin = pmin2 := Option.some.inj (hpmin.symm.trans hpmin2)
  obtain rfl : omin = omin2 := Option.some.inj (homin.symm.trans homin2)
  obtain rfl : pmax = pmax2 := Option.some.inj (hpmax.symm.trans hpmax2)
  obtain rfl : omax = omax2 := Option.some.inj (homax.symm.trans homax2)
  subst hnuF
  subst hw
  refine ⟨_, rfl, rfl, rfl, fun hlo => ⟨?_, fun x hx => ?_⟩, fun hlo => ?_,
    fun hhi => ⟨?_, fun x hx => ?_⟩, fun hhi => ?_⟩
  · rw [if_pos hlo]
    simp
  · by_cases hhi : omax < pmax
    · rw [if_pos hhi, if_pos hlo] at hx
      rw [List.mem_filter] at hx
      obtain ⟨hx1, -⟩ := hx
      rw [List.mem_filter] at hx1
      exact of_decide_eq_true hx1.2
    · rw [if_neg hhi, if_pos hlo] at hx
      rw [List.mem_filter] at hx
      exact of_decide_eq_true hx.2
  · rw [if_neg hlo]
    by_cases hhi : omax < pmax <;> simp [hhi, warnLow, warnHigh]
  · rw [if_pos hhi]
    simp
  · rw [if_pos hhi] at hx
    rw [List.mem_filter] at hx
    exact of_decide_eq_true hx.2
  · rw [if_neg hhi]
    by_cases hlo : pmin < omin <;> simp [hlo, warnLow, warnHigh]

/-- Witness for C2 on a concrete opacity model and externals. -/
theorem set_lte_spec_witness :
    (⟨true, some "specific_energy", some [4], some [1, 2], some [[1], [1]]⟩ : Emissivities).is_lte = true ∧
    (⟨true, some "specific_energy", some [4], some [1, 2], some [[1], [1]]⟩ : Emissivities).var_name = some "specific_energy" ∧
    ∃ nuF, (⟨true, some "specific_energy", some [4], some [1, 2], some [[1], [1]]⟩ : Emissivities).nu = some nuF ∧
      validAxis nuF = true ∧
      ((⟨fun _ _ => 1, fun a b => [a, b], fun _ b => b, fun _ _ tgt => tgt.map fun _ => 1, fun a _ n => List.replicate n a, 1⟩ : Externals).interp1d_fast_loglog (⟨[1, 2], [1, 1], fun _ _ => 1⟩ : OpticalProperties).nu (⟨[1, 2], [1, 1], fun _ _ => 1⟩ : OpticalProperties).kappa nuF).length = nuF.length ∧
      (⟨true, some "specific_energy", some [4], some [1, 2], some [[1], [1]]⟩ : Emissivities).var = some (((⟨fun _ _ => 1, fun a b => [a, b], fun _ b => b, fun _ _ tgt => tgt.map fun _ => 1, fun a _ n => List.replicate n a, 1⟩ : Externals).logspace 1 2 1).map fun T =>
        4 * (⟨fun _ _ => 1, fun a b => [a, b], fun _ b => b, fun _ _ tgt => tgt.map fun _ => 1, fun a _ n => List.replicate n a, 1⟩ : Externals).sigma * T ^ (4 : ℕ) *
          (⟨[1, 2], [1, 1], fun _ _ => 1⟩ : OpticalProperties).kappa_planck_spectrum nuF (nuF.map fun v => (⟨fun _ _ => 1, fun a b => [a, b], fun _ b => b, fun _ _ tgt => tgt.map fun _ => 1, fun a _ n => List.replicate n a, 1⟩ : Externals).B_nu v T)) ∧
      validAxis (((⟨fun _ _ => 1, fun a b => [a, b], fun _ b => b, fun _ _ tgt => tgt.map fun _ => 1, fun a _ n => List.replicate n a, 1⟩ : Externals).logspace 1 2 1).map fun T =>
        4 * (⟨fun _ _ => 1, fun a b => [a, b], fun _ b => b, fun _ _ tgt => tgt.map fun _ => 1, fun a _ n => List.replicate n a, 1⟩ : Externals).sigma * T ^ (4 : ℕ) *
          (⟨[1, 2], [1, 1], fun _ _ => 1⟩ : OpticalProperties).kappa_planck_spectrum nuF (nuF.map fun v => (⟨fun _ _ => 1, fun a b => [a, b], fun _ b => b, fun _ _ tgt => tgt.map fun _ => 1, fun a _ n => List.replicate n a, 1⟩ : Externals).B_nu v T)) = true ∧
      (⟨true, some "specific_energy", some [4], some [1, 2], some [[1], [1]]⟩ : Emissivities).jnu = some ((nuF.zip
        ((⟨fun _ _ => 1, fun a b => [a, b], fun _ b => b, fun _ _ tgt => tgt.map fun _ => 1, fun a _ n => List.replicate n a, 1⟩ : Externals).interp1d_fast_loglog (⟨[1, 2], [1, 1], fun _ _ => 1⟩ : OpticalProperties).nu (⟨[1, 2], [1, 1], fun _ _ => 1⟩ : OpticalProperties).kappa nuF)).map
          fun p => ((⟨fun _ _ => 1, fun a b => [a, b], fun _ b => b, fun _ _ tgt => tgt.map fun _ => 1, fun a _ n => List.replicate n a, 1⟩ : Externals).logspace 1 2 1).map fun T => p.2 * (⟨fun _ _ => 1, fun a b => [a, b], fun _ b => b, fun _ _ tgt => tgt.map fun _ => 1, fun a _ n => List.replicate n a, 1⟩ : Externals).B_nu p.1 T) ∧
      (∀ varLx, (⟨true, some "specific_energy", some [4], some [1, 2], some [[1], [1]]⟩ : Emissivities).var = some varLx → varLx.length = 1) ∧
      (∀ mx, (⟨true, some "specific_energy", some [4], some [1, 2], some [[1], [1]]⟩ : Emissivities).jnu = some mx →
        mx.length = nuF.length ∧ ∀ r ∈ mx, r.length = 1) :=
  set_lte_spec (⟨fun _ _ => 1, fun a b => [a, b], fun _ b => b, fun _ _ tgt => tgt.map fun _ => 1, fun a _ n => List.replicate n a, 1⟩ : Externals) (⟨[1, 2], [1, 1], fun _ _ => 1⟩ : OpticalProperties) Emissivities.init (⟨true, some "specific_energy", some [4], some [1, 2], some [[1], [1]]⟩ : Emissivities) 1 1 2 []
    (by
      unfold Emissivities.set_lte
      norm_num [Emissivities.init, Emissivities.set_nu, Emissivities.set_var,
        Emissivities.set_jnu, validateAxis, coercePy,
        Emissivities.monotonically_increasing, getOpt, List.min?, List.max?,
        min_def, max_def, isRect, Emissivities.ncols, List.replicate,
        Bind.bind, Except.bind])
    (by rfl)

/-- Witness for C6 on a concrete setup where both truncations fire. -/
theorem set_lte_truncation_witness :
    ∃ nuF, (⟨true, some "specific_energy", some [324], some [2, 5], some [[1], [1]]⟩ : Emissivities).nu = some nuF ∧
      nuF = (if (5 : ℚ) < 10 then
               (if (1 : ℚ) < 2 then
                  ((⟨fun _ _ => 1, fun _ _ => [1, 10], fun _ _ => [1, 2, 5, 10], fun _ _ tgt => tgt.map fun _ => 1, fun a _ n => List.replicate n a, 1⟩ : Externals).nu_common ((⟨fun _ _ => 1, fun _ _ => [1, 10], fun _ _ => [1, 2, 5, 10], fun _ _ tgt => tgt.map fun _ => 1, fun a _ n => List.replicate n a, 1⟩ : Externals).planck_nu_range 3 4) (⟨[2, 5], [1, 1], fun _ _ => 1⟩ : OpticalProperties).nu).filter
                    (fun x => (2 : ℚ) ≤ x)
                else (⟨fun _ _ => 1, fun _ _ => [1, 10], fun _ _ => [1, 2, 5, 10], fun _ _ tgt => tgt.map fun _ => 1, fun a _ n => List.replicate n a, 1⟩ : Externals).nu_common ((⟨fun _ _ => 1, fun _ _ => [1, 10], fun _ _ => [1, 2, 5, 10], fun _ _ tgt => tgt.map fun _ => 1, fun a _ n => List.replicate n a, 1⟩ : Externals).planck_nu_range 3 4) (⟨[2, 5], [1, 1], fun _ _ => 1⟩ : OpticalProperties).nu).filter
                 (fun x => x ≤ (5 : ℚ))
             else if (1 : ℚ) < 2 then
               ((⟨fun _ _ => 1, fun _ _ => [1, 10], fun _ _ => [1, 2, 5, 10], fun _ _ tgt => tgt.map fun _ => 1, fun a _ n => List.replicate n a, 1⟩ : Externals).nu_common ((⟨fun _ _ => 1, fun _ _ => [1, 10], fun _ _ => [1, 2, 5, 10], fun _ _ tgt => tgt.map fun _ => 1, fun a _ n => List.replicate n a, 1⟩ : Externals).planck_nu_range 3 4) (⟨[2, 5], [1, 1], fun _ _ => 1⟩ : OpticalProperties).nu).filter
                 (fun x => (2 : ℚ) ≤ x)
             else (⟨fun _ _ => 1, fun _ _ => [1, 10], fun _ _ => [1, 2, 5, 10], fun _ _ tgt => tgt.map fun _ => 1, fun a _ n => List.replicate n a, 1⟩ : Externals).nu_common ((⟨fun _ _ => 1, fun _ _ => [1, 10], fun _ _ => [1, 2, 5, 10], fun _ _ tgt => tgt.map fun _ => 1, fun a _ n => List.replicate n a, 1⟩ : Externals).planck_nu_range 3 4) (⟨[2, 5], [1, 1], fun _ _ => 1⟩ : OpticalProperties).nu) ∧
      [warnLow, warnHigh] =
        (if (1 : ℚ) < 2 then [warnLow] else []) ++
          (if (5 : ℚ) < 10 then [warnHigh] else []) ∧
      ((1 : ℚ) < 2 → warnLow ∈ [warnLow, warnHigh] ∧ ∀ x ∈ nuF, (2 : ℚ) ≤ x) ∧
      (¬ (1 : ℚ) < 2 → warnLow ∉ [warnLow, warnHigh]) ∧
      ((5 : ℚ) < 10 → warnHigh ∈ [warnLow, warnHigh] ∧ ∀ x ∈ nuF, x ≤ (5 : ℚ)) ∧
      (¬ (5 : ℚ) < 10 → warnHigh ∉ [warnLow, warnHigh]) :=
  set_lte_truncation (⟨fun _ _ => 1, fun _ _ => [1, 10], fun _ _ => [1, 2, 5, 10], fun _ _ tgt => tgt.map fun _ => 1, fun a _ n => List.replicate n a, 1⟩ : Externals) (⟨[2, 5], [1, 1], fun _ _ => 1⟩ : OpticalProperties) Emissivities.init (⟨true, some "specific_energy", some [324], some [2, 5], some [[1], [1]]⟩ : Emissivities) 1 3 4 1 2 10 5
    [warnLow, warnHigh]
    (by
      unfold Emissivities.set_lte
      norm_num [Emissivities.init, Emissivities.set_nu, Emissivities.set_var,
        Emissivities.set_jnu, validateAxis, coercePy,
        Emissivities.monotonically_increasing, getOpt, List.min?, List.max?,
        min_def, max_def, isRect, Emissivities.ncols, List.replicate,
        Bind.bind, Except.bind, List.filter, warnLow, warnHigh])
    (by norm_num [List.min?, min_def]) (by norm_num [List.min?, min_def])
    (by norm_num [List.max?, max_def]) (by norm_num [List.max?, max_def])

/-! ### Counterexamples to the literal C3, C4, C5 -/

/-- C4 fails as literally stated: `None` is not a 1-D array, yet assigning
it to `nu` is accepted (the `value is not None` guard in `__setattr__`
skips validation entirely) and resets the attribute, clearing the prior
value instead of raising the invalid-shape error. -/
theorem nu_setter_none_accepted :
    Emissivities.set_nu ⟨false, Option.none, some [1], some [2], Option.none⟩
      PyVal.none =
      .ok ⟨false, Option.none, some [1], Option.none, Option.none⟩ := by
  rfl

/-- C5 fails as literally stated: with `nu` and `var` both absent,
assigning `None` to `jnu` is accepted rather than raising the
missing-dependency error. -/
theorem jnu_setter_none_accepted :
    Emissivities.set_jnu Emissivities.init PyVal.none =
      .ok Emissivities.init := by
  rfl

/-- C3 fails as literally stated: this complete table's `jnu` has 2 rows
while `len(nu) = 3` (reachable by re-assigning a longer `nu` after `jnu`
was set, which the setters accept); `to_table_set` serializes it without
error, but `from_table_set` raises the `jnu` shape error instead of
reproducing the table. -/
theorem codec_round_trip_counterexample :
    (Emissivities.to_table_set
        ⟨false, some "specific_energy", some [1], some [1, 2, 3],
          some [[0], [0]]⟩ TableSet.empty).2 = Option.none ∧
    Emissivities.init.from_table_set
        (Emissivities.to_table_set
          ⟨false, some "specific_energy", some [1], some [1, 2, 3],
            some [[0], [0]]⟩ TableSet.empty).1 =
      .error (.invalidShape "jnu") := by
  constructor <;> rfl

end Hyperion
